import Mathlib

/-!
Verification development for the picksync backend scan pipeline.

Shallow embedding of the pipeline components the specification talks about:
* the scan-status tracker (`src/scanState.js`),
* the batch analyzer (`src/gamblina.js`) with its content-fingerprint cache
  (cache implementation: the node-cache wrapper, `getCache`/`setCache`),
* the persistence layer (`src/database.js`: `saveScan`, `savePicksForScan`,
  with the schema from `initDatabase`),
* the scan coordinator (`runScan` in the scheduler module).

JavaScript numbers are modelled as `Int`/`Nat`; JS `x || d` on possibly-missing
values is modelled with explicit falsiness helpers (`0` and `""` are falsy);
exceptions are modelled with `Except`; wall-clock reads (`Date.now()`) are
passed in as explicit parameters; network and storage calls are modelled by
explicit outcome parameters (oracles), threaded in program order.
-/

namespace Picksync

/-- JS `v || d` for an optional number: `undefined`/`null` and `0` are falsy. -/
def jsOrInt (v : Option Int) (d : Int) : Int :=
  match v with
  | none => d
  | some x => if x = 0 then d else x

/-- JS `v || d` for an optional string: `undefined`/`null` and `""` are falsy. -/
def jsOrStr (v : Option String) (d : String) : String :=
  match v with
  | none => d
  | some s => if s = "" then d else s

/-- JS truthiness filter for an optional string (`""` collapses to `null`). -/
def jsTruthy (v : Option String) : Option String :=
  match v with
  | none => none
  | some s => if s = "" then none else some s

/-! ## Scan State Tracker (`src/scanState.js`) -/

/-- The `currentScanStatus` record of `src/scanState.js` (lines 12-21). -/
structure ScanStatus where
  scanning : Bool
  step : String
  progress : Nat
  details : String
  error : Option String
  lastUpdate : Nat
  startTime : Option Nat
  totalSteps : Nat
deriving DecidableEq

/-- Initial/reset scan status (`resetScanStatus`, `src/scanState.js` lines 60-71);
`now` is the `Date.now()` reading for `lastUpdate`. -/
def resetScanStatus (now : Nat) : ScanStatus :=
  { scanning := false
    step := "idle"
    progress := 0
    details := ""
    error := none
    lastUpdate := now
    startTime := none
    totalSteps := 5 }

/-- The `updateScanStatus(step, progress, details)` operation
(`src/scanState.js` lines 24-36). It rebuilds the whole record:
`scanning` becomes `progress < 100`, `error` is reset to `null`, and
`startTime` is kept when already set (`currentScanStatus.startTime || Date.now()`). -/
def updateScanStatus (step : String) (progress : Nat) (details : String)
    (now : Nat) (cur : ScanStatus) : ScanStatus :=
  { scanning := decide (progress < 100)
    step := step
    progress := progress
    details := details
    error := none
    lastUpdate := now
    startTime := some (cur.startTime.getD now)
    totalSteps := 5 }

/-- The `setScanError(error)` operation (`src/scanState.js` lines 39-47):
spreads the previous record, then sets `scanning := false`,
`error := error.message || 'Unknown error'` and stamps `lastUpdate`.
`msg` is the incoming `error.message` (possibly absent/empty). -/
def setScanError (msg : Option String) (now : Nat) (cur : ScanStatus) : ScanStatus :=
  { cur with
    scanning := false
    error := some (jsOrStr msg "Unknown error")
    lastUpdate := now }

/-! ## Batch Analyzer (`src/gamblina.js`) -/

/-- A raw Reddit comment as consumed by `analyzeWithGamblina`. Fields are the
ones the analyzer reads: `author`, `text`, `score`, `record`, `commentId`
(`winRate` and presentation-only fields are not referenced by any claim). -/
structure RawComment where
  author : String
  text : String
  score : Int
  record : Option String
  commentId : String
deriving DecidableEq

/-- One pick object parsed from the analysis-service response (the JSON array
elements). Optional fields model JS `undefined`. Presentation-only fields the
claims never mention (`sport`, `units`, `reasoning`, `keyFactors`, `riskLevel`,
`gameTime`, `gameDate`, `posterWinRate`) are omitted. -/
structure GPick where
  poster : Option String
  posterRecord : Option String
  confidence : Option Int
  teams : Option String
  event : Option String
  pick : Option String
deriving DecidableEq

/-- An enriched pick as produced by the `enrichedPicks` mapping in
`analyzeWithGamblina` (`src/gamblina.js` lines 82-110). Presentation-only
columns (`sport`, `odds`, `units`, `comment_url`, `reasoning`, `risk_factors`,
`ai_analysis`, `game_time`, `game_date`) are omitted; no claim reads them. -/
structure EnrichedPick where
  rank : Nat
  confidence : Int
  event : String
  pickText : String
  comment_score : Int
  comment_author : String
  comment_body : String
  user_record : Option String
deriving DecidableEq

/-- The content fingerprint of a batch: the md5 over
`JSON.stringify(batchComments.map(c => ({author: c.author, text: c.text})))`
(`src/gamblina.js` lines 50-53) is modelled injectively by the underlying
author/text pair list itself. -/
def fingerprint (batch : List RawComment) : List (String × String) :=
  batch.map (fun c => (c.author, c.text))

/-- The in-process cache (node-cache wrapper) restricted to the
`gamblina:batch:<hash>` namespace, as an association list keyed by batch
fingerprint. All entries are taken to be within their TTL (the claims quantify
over calls inside the TTL window). -/
def Cache : Type := List (List (String × String) × List GPick)

/-- Cache lookup (`getCache`): first matching entry wins. Overwrites by
`setCache` are modelled by prepending, so the freshest value is found first,
matching node-cache `set` replacing the stored value. -/
def getCache : Cache → List (String × String) → Option (List GPick)
  | [], _ => none
  | (k', v) :: rest, k => if k' = k then some v else getCache rest k

/-- Cache write (`setCache`), see `getCache` for the overwrite convention. -/
def setCache (cache : Cache) (k : List (String × String)) (v : List GPick) : Cache :=
  (k, v) :: cache

/-- The fixed batch size (`const BATCH_SIZE = 45`, `src/gamblina.js` line 9). -/
def BATCH_SIZE : Nat := 45

/-- Number of batches: `needsBatching ? Math.ceil(N / BATCH_SIZE) : 1`
(`src/gamblina.js` lines 28-29), with `Math.ceil` on naturals written as
`(n + b - 1) / b`. -/
def numBatches (b n : Nat) : Nat :=
  if b < n then (n + b - 1) / b else 1

/-- The batch partition computed by the loop in `analyzeWithGamblina`
(`src/gamblina.js` lines 40-43): batch `i` is
`allComments.slice(i*B, min(i*B + B, N))`. The empty list yields no batches
(the function returns before the loop, line 23-25). -/
def gamblinaBatches (b : Nat) (xs : List RawComment) : List (List RawComment) :=
  if xs = [] then []
  else (List.range (numBatches b xs.length)).map (fun i => (xs.drop (i * b)).take b)

/-- The sequential batch loop of `analyzeWithGamblina` (`src/gamblina.js`
lines 40-78), threading the cache and accumulating picks, token counts and the
number of Analysis Service invocations. `oracle i` is the outcome of the
`analyzeBatch` call for batch index `i`: `Except.error` when the call fails
(timeout, non-success status, unparsable payload — `analyzeBatch` rethrows,
lines 289-292, and the loop has no try/catch around it), `Except.ok (picks,
tokensUsed)` on success. On a cache hit the cached picks are reused and no
invocation happens; on a miss the service is invoked and a successful result
is cached (`setCache`, line 71). The inter-batch delay (line 74-77) has no
observable effect in this model. -/
def runBatches (oracle : Nat → Except Unit (List GPick × Nat)) :
    List (List RawComment) → Nat → Cache → Except Unit (List GPick × Nat × Cache × Nat)
  | [], _, cache => Except.ok ([], 0, cache, 0)
  | batch :: rest, i, cache =>
    match getCache cache (fingerprint batch) with
    | some cachedPicks =>
      match runBatches oracle rest (i + 1) cache with
      | Except.error e => Except.error e
      | Except.ok (picks, toks, cache', calls) =>
        Except.ok (cachedPicks ++ picks, toks, cache', calls)
    | none =>
      match oracle i with
      | Except.error e => Except.error e
      | Except.ok (picks, toks) =>
        match runBatches oracle rest (i + 1) (setCache cache (fingerprint batch) picks) with
        | Except.error e => Except.error e
        | Except.ok (morePicks, toks', cache', calls) =>
          Except.ok (picks ++ morePicks, toks + toks', cache', calls + 1)

/-- The enrichment mapping of `analyzeWithGamblina` (`src/gamblina.js`
lines 82-110): each accumulated pick is joined back to its originating comment
by `allComments.find(c => c.author === pick.poster)` (first match wins) and
`rank` is assigned as the 1-based accumulation index — note this happens
BEFORE the confidence sort (line 119). -/
def enrichPicks (allComments : List RawComment) (allPicks : List GPick) : List EnrichedPick :=
  allPicks.enum.map (fun ip =>
    let pick := ip.2
    let original := allComments.find? (fun c => decide (pick.poster = some c.author))
    { rank := ip.1 + 1
      confidence := jsOrInt pick.confidence 50
      event := jsOrStr pick.teams (jsOrStr pick.event "Unknown")
      pickText := jsOrStr pick.pick ""
      comment_score := (original.map (fun c => c.score)).getD 0
      comment_author := jsOrStr pick.poster "unknown"
      comment_body := (original.map (fun c => c.text)).getD ""
      user_record :=
        match jsTruthy pick.posterRecord with
        | some s => some s
        | none => jsTruthy (original.bind (fun c => c.record)) })

/-- Stable insertion step for the JS sort
`enrichedPicks.sort((a, b) => (b.confidence || 0) - (a.confidence || 0))`
(`src/gamblina.js` line 119): descending by confidence, and an element is
placed after every already-placed element with greater-or-equal confidence
(ECMAScript `Array.prototype.sort` is stable, so ties keep the order in which
elements were accumulated). The `|| 0` in the comparator is the identity here
because enriched confidences are already defaulted by `jsOrInt _ 50`. -/
def insertByConfDesc (x : EnrichedPick) : List EnrichedPick → List EnrichedPick
  | [] => [x]
  | y :: ys => if x.confidence ≤ y.confidence then y :: insertByConfDesc x ys
               else x :: y :: ys

/-- The stable descending-by-confidence sort (see `insertByConfDesc`). -/
def jsSortByConfDesc (l : List EnrichedPick) : List EnrichedPick :=
  l.foldl (fun acc x => insertByConfDesc x acc) []

/-- The order a stable descending confidence sort realises on elements with
pairwise-distinct ranks: strictly greater confidence first, and accumulation
order (the pre-sort `rank`) first among equal confidences. -/
def rankedBefore (a c : EnrichedPick) : Prop :=
  c.confidence < a.confidence ∨ (a.confidence = c.confidence ∧ a.rank < c.rank)

/-- The result object of `analyzeWithGamblina` (`src/gamblina.js`
lines 129-134); the monthly call counter is not modelled. -/
structure GamblinaResult where
  analyzedPicks : List EnrichedPick
  totalAnalyzed : Nat
  tokensUsed : Nat
deriving DecidableEq

/-- `analyzeWithGamblina(allComments)` (`src/gamblina.js` lines 15-135) as a
function of the incoming cache state and the per-batch Analysis Service
oracle. Returns the result together with the final cache and the number of
Analysis Service invocations performed. A batch failure is NOT caught
(`analyzeBatch` rethrows and the loop has no try/catch), so it surfaces as
`Except.error`. -/
def analyzeWithGamblina (cache : Cache) (oracle : Nat → Except Unit (List GPick × Nat))
    (allComments : List RawComment) : Except Unit (GamblinaResult × Cache × Nat) :=
  if allComments = [] then
    Except.ok ({ analyzedPicks := [], totalAnalyzed := 0, tokensUsed := 0 }, cache, 0)
  else
    match runBatches oracle (gamblinaBatches BATCH_SIZE allComments) 0 cache with
    | Except.error e => Except.error e
    | Except.ok (allPicks, totalTokens, cache', calls) =>
      let enriched := enrichPicks allComments allPicks
      let sorted := jsSortByConfDesc enriched
      Except.ok ({ analyzedPicks := sorted
                   totalAnalyzed := sorted.length
                   tokensUsed := totalTokens }, cache', calls)

/-! ## Persistence Layer (`src/database.js`) -/

/-- One row of the `scans` table. Claim-relevant columns only; `potd_url`,
`scan_date`, `total_comments`, `total_picks`, `scan_duration`, `status` and
`created_at` carry presentation data no claim reads. The schema
(`initDatabase`, `src/database.js` lines 87-99) declares `id` as primary key
and `is_current BOOLEAN DEFAULT 0` with no other constraint. -/
structure ScanRow where
  id : String
  potd_title : String
  potd_date : String
  is_current : Bool
deriving DecidableEq

/-- One row of the `picks` table. The natural-key columns plus basics; the
schema (`initDatabase`, `src/database.js` lines 101-127) declares only
`id INTEGER PRIMARY KEY AUTOINCREMENT` — there is NO unique constraint over
`(comment_author, event, pick, scan_id)` or any other column set, and neither
`neon-setup.sql` nor `vercel-postgres-schema.sql` adds one. -/
structure PickRow where
  scan_id : String
  comment_author : String
  event : String
  pickText : String
  rank : Nat
  confidence : Int
deriving DecidableEq

/-- The database state: the `scans` and `picks` tables in insertion order. -/
structure Store where
  scans : List ScanRow
  picks : List PickRow
deriving DecidableEq

/-- The empty database. -/
def emptyStore : Store := { scans := [], picks := [] }

/-- The scan metadata passed to `saveScan` by the coordinator. -/
structure ScanData where
  id : String
  potdTitle : String
deriving DecidableEq

/-- `saveScan(scanData)` (`src/database.js` lines 242-295, SQLite and Postgres
branches are identical in logic). `potdDate` is the result of
`extractPOTDDate(scanData.potdTitle)` — the regex date extraction is abstracted
into this parameter; the claims quantify over titles deriving equal or
different dates, which is exactly this value. The body:
`SELECT ... WHERE is_current = 1` (first matching row, `queryOne`/`.get()`);
if a current row exists AND its `potd_date` differs from the new one, demote
every current row; then unconditionally insert the new scan with
`is_current = 1`. NOTE: when the existing current row has the SAME date,
nothing is demoted or deleted before the insert. -/
def saveScan (potdDate : String) (scanData : ScanData) (s : Store) : Store :=
  let existingCurrent := s.scans.find? (fun r => r.is_current)
  let scans1 :=
    match existingCurrent with
    | some row =>
      if row.potd_date ≠ potdDate then
        s.scans.map (fun r => if r.is_current then { r with is_current := false } else r)
      else s.scans
    | none => s.scans
  { s with
    scans := scans1 ++ [{ id := scanData.id
                          potd_title := scanData.potdTitle
                          potd_date := potdDate
                          is_current := true }] }

/-- A single `INSERT INTO picks ...` as issued by `savePicksForScan`. The
`picks` schema has no applicable unique constraint (see `PickRow`), so the
insert cannot raise a duplicate/UNIQUE error: it always appends. The
`Except` shape records that the call site wraps it in try/catch. -/
def insertPick (s : Store) (row : PickRow) : Except String Store :=
  Except.ok { s with picks := s.picks ++ [row] }

/-- The pick row built from one enriched pick by `savePicksForScan`
(`src/database.js` lines 305-316), claim-relevant columns. -/
def pickRowOf (scanId : String) (p : EnrichedPick) : PickRow :=
  { scan_id := scanId
    comment_author := p.comment_author
    event := p.event
    pickText := p.pickText
    rank := p.rank
    confidence := p.confidence }

/-- The per-pick loop body of `savePicksForScan` (`src/database.js`
lines 303-325): insert; on an error whose message mentions
`duplicate`/`UNIQUE`, count a duplicate and continue; otherwise rethrow.
Returns the store plus `(savedCount, duplicateCount)`. -/
def savePicksLoop (scanId : String) :
    List EnrichedPick → Store → Nat → Nat → Except String (Store × Nat × Nat)
  | [], s, savedCount, duplicateCount => Except.ok (s, savedCount, duplicateCount)
  | p :: rest, s, savedCount, duplicateCount =>
    match insertPick s (pickRowOf scanId p) with
    | Except.ok s' => savePicksLoop scanId rest s' (savedCount + 1) duplicateCount
    | Except.error msg =>
      if (msg.containsSubstr "duplicate".toSubstring || msg.containsSubstr "UNIQUE".toSubstring) then
        savePicksLoop scanId rest s savedCount (duplicateCount + 1)
      else Except.error msg

/-- `savePicksForScan(scanId, picks)` (`src/database.js` lines 298-328). -/
def savePicksForScan (scanId : String) (picks : List EnrichedPick) (s : Store) :
    Except String (Store × Nat × Nat) :=
  savePicksLoop scanId picks s 0 0

/-- The rows a "current runs" query returns
(`SELECT ... WHERE is_current = 1`, as in `getCurrentPOTDPicks` /
`getTodaysPicks`, `src/database.js` lines 195-214). -/
def currentScans (s : Store) : List ScanRow :=
  s.scans.filter (fun r => r.is_current)

/-! ## Scan Coordinator (`runScan` in the scheduler module) -/

/-- One `scheduler_logs` record as appended by `logSchedulerEvent`
(message text not modelled). -/
structure LogEvent where
  eventType : String
  scanId : Option String
  success : Bool
deriving DecidableEq

/-- The data `getPOTDData()` returns that `runScan` reads. -/
structure PotdData where
  title : String
  totalComments : Nat
deriving DecidableEq

/-- The scheduler-visible state: the module-level `isRunning` guard, the scan
status tracker, and the `scheduler_logs` table. -/
structure SchedState where
  isRunning : Bool
  status : ScanStatus
  logs : List LogEvent
deriving DecidableEq

/-- The structured result object `runScan` returns (busy / success / failure
shapes share this record with absent fields as `none`; the clock-derived
`duration` and pass-through counters are not modelled). -/
structure RunResult where
  success : Bool
  message : Option String
  error : Option String
  scanId : Option String
  picks : Option (List EnrichedPick)
deriving DecidableEq

/-- Outcomes of the fallible collaborator calls made by one `runScan`
execution, in program order: `getPOTDData()`, `await analyzeWithGamblina(...)`,
`await savePicksForScan(...)`, and the two `logSchedulerEvent(...)` calls
(a better-sqlite3 insert, which can throw) on the success path (scheduler
line 76) and inside the catch handler (line 113). `scanId` is the
`scan_${Date.now()}` string and `now` the wall-clock reading. The unawaited
`saveScan(...)` call (line 52) is an async call whose rejection cannot enter
this try/catch, so it has no control-flow outcome here. -/
structure RunDeps where
  fetchResult : Except String PotdData
  analyzeResult : Except String (List EnrichedPick × Nat)
  savePicksResult : Except String Unit
  logSuccessResult : Except String Unit
  logFailureResult : Except String Unit
  scanId : String
  now : Nat

/-- The catch block of `runScan` (scheduler lines 103-126):
`logSchedulerEvent('scan', ..., false, ...)`, then `setScanError(error)`, then
`isRunning = false`, then return the structured failure result. A throw from
`logSchedulerEvent` inside this handler is NOT caught (there is no nested
try/catch and no `finally`), so it propagates with the guard still held. -/
def withStatus (st : SchedState) (step : String) (progress : Nat) (details : String)
    (now : Nat) : SchedState :=
  { st with status := updateScanStatus step progress details now st.status }

/-- A `RunResult` with only `success` and the optional fields that are set. -/
def mkRunResult (success : Bool) (message error scanId : Option String)
    (picks : Option (List EnrichedPick)) : RunResult :=
  { success := success, message := message, error := error, scanId := scanId, picks := picks }

/-- The record `logSchedulerEvent('scan', scanId, success, message)` appends. -/
def scanLogEvent (scanId : String) (success : Bool) : LogEvent :=
  { eventType := "scan", scanId := some scanId, success := success }

def runScanCatch (deps : RunDeps) (st : SchedState) (e : String) :
    Except String RunResult × SchedState :=
  match deps.logFailureResult with
  | Except.error e2 => (Except.error e2, st)
  | Except.ok _ =>
    let st := { st with logs := st.logs ++ [scanLogEvent deps.scanId false] }
    let st := { st with status := setScanError (some e) deps.now st.status }
    let st := { st with isRunning := false }
    (Except.ok (mkRunResult false none (some e) none none), st)

/-- `runScan()` (scheduler lines 18-126). The busy path (lines 19-22) returns
`{success: false, message: 'Scan already running'}` without touching any
state. Otherwise the guard is set, the status tracker is reset and updated at
each stage, fallible stages branch to the catch handler on error, and the
success path logs, marks 100%, releases the guard and returns the structured
success result. `clearCache`/`deleteCache` catch internally and never throw;
status updates are pure. -/
def runScan (deps : RunDeps) (st : SchedState) : Except String RunResult × SchedState :=
  if st.isRunning then
    (Except.ok (mkRunResult false (some "Scan already running") none none none), st)
  else
    let st := { st with isRunning := true }
    let st := { st with status := resetScanStatus deps.now }
    let st := withStatus st "reddit" 20 "Fetching POTD thread..." deps.now
    match deps.fetchResult with
    | Except.error e => runScanCatch deps st e
    | Except.ok potd =>
      let st := withStatus st "reddit" 40 ("Found " ++ toString potd.totalComments ++ " comments") deps.now
      let st := withStatus st "analysis" 50 "Analyzing picks with AI..." deps.now
      match deps.analyzeResult with
      | Except.error e => runScanCatch deps st e
      | Except.ok analyzed =>
        let st := withStatus st "analysis" 80 ("Extracted " ++ toString analyzed.1.length ++ " quality picks") deps.now
        let st := withStatus st "database" 90 "Saving picks..." deps.now
        match deps.savePicksResult with
        | Except.error e => runScanCatch deps st e
        | Except.ok _ =>
          match deps.logSuccessResult with
          | Except.error e => runScanCatch deps st e
          | Except.ok _ =>
            let st := { st with logs := st.logs ++ [scanLogEvent deps.scanId true] }
            let st := withStatus st "complete" 100 ("Saved " ++ toString analyzed.1.length ++ " picks successfully") deps.now
            let st := { st with isRunning := false }
            (Except.ok (mkRunResult true none none (some deps.scanId) (some analyzed.1)), st)

/-! ## Concrete fixtures used by witnesses and counterexamples -/

/-- A 46-comment thread: with `BATCH_SIZE = 45` it partitions into two
batches (45 comments, then 1). Authors are distinct so the two batches have
distinct fingerprints. -/
def comments46 : List RawComment :=
  (List.range 46).map (fun i =>
    { author := toString i, text := "t", score := 0, record := none, commentId := "c" })

/-- A sample extracted pick attributed to the first comment's author. -/
def gpickA : GPick :=
  { poster := some "0", posterRecord := none, confidence := some 80
    teams := some "A vs B", event := none, pick := some "A ML" }

/-- Analysis Service behaviour where batch 0 succeeds with one pick and
batch 1 fails (timeout / bad status / unparsable payload). -/
def oracle46 : Nat → Except Unit (List GPick × Nat) :=
  fun i => if i = 1 then Except.error () else Except.ok ([gpickA], 10)

/-- A low-confidence extracted pick (no matching comment needed). -/
def gpickLow : GPick :=
  { poster := none, posterRecord := none, confidence := some 10
    teams := none, event := none, pick := none }

/-- A high-confidence extracted pick accumulated after `gpickLow`. -/
def gpickHigh : GPick :=
  { poster := none, posterRecord := none, confidence := some 90
    teams := none, event := none, pick := none }

/-- A single comment, forming a one-batch input. -/
def comment1 : RawComment :=
  { author := "alice", text := "A ML", score := 1, record := none, commentId := "c1" }

/-- An Analysis Service that always succeeds with no picks and 5 tokens. -/
def oracleOk : Nat → Except Unit (List GPick × Nat) :=
  fun _ => Except.ok ([], 5)

/-- Scan metadata for a first run over a topic. -/
def scanData1 : ScanData := { id := "scan1", potdTitle := "POTD 1/5/25" }

/-- Scan metadata for a second run whose title derives the same date. -/
def scanData2 : ScanData := { id := "scan2", potdTitle := "POTD 1/5/25" }

/-- A sample enriched pick to persist. -/
def pickA : EnrichedPick :=
  { rank := 1, confidence := 80, event := "A vs B", pickText := "A ML"
    comment_score := 3, comment_author := "alice", comment_body := "A ML all day"
    user_record := none }

/-- Scheduler state with no scan in progress. -/
def idleState : SchedState :=
  { isRunning := false, status := resetScanStatus 0, logs := [] }

/-- Scheduler state while a scan is in progress. -/
def busyState : SchedState :=
  { isRunning := true, status := resetScanStatus 0, logs := [] }

/-- Collaborator outcomes where every call succeeds. -/
def depsAllOk : RunDeps :=
  { fetchResult := Except.ok { title := "POTD 1/5/25", totalComments := 46 }
    analyzeResult := Except.ok ([pickA], 10)
    savePicksResult := Except.ok ()
    logSuccessResult := Except.ok ()
    logFailureResult := Except.ok ()
    scanId := "scan_1"
    now := 0 }

/-- Collaborator outcomes where the fetch stage throws and the catch
handler's own `logSchedulerEvent` call also throws (storage error). -/
def depsFetchFailLogFail : RunDeps :=
  { depsAllOk with
    fetchResult := Except.error "reddit down"
    logFailureResult := Except.error "db locked" }

end Picksync

namespace Picksync

/-- Claim C10: after every `updateScanStatus(step, progress, details)` call the tracker
record satisfies `scanning = (progress < 100)` and `error = null` (a status update
silently clears any previous error), whereas `setScanError` sets `scanning = false`
and the error message while leaving the previously recorded step, progress and
details unchanged. -/
theorem c10_update_and_error_semantics (cur : ScanStatus) (step details : String)
    (progress now now2 : Nat) (msg : Option String) :
    ((updateScanStatus step progress details now cur).scanning = true ↔ progress < 100)
    ∧ (updateScanStatus step progress details now cur).error = none
    ∧ (setScanError msg now2 cur).scanning = false
    ∧ (setScanError msg now2 cur).error = some (jsOrStr msg "Unknown error")
    ∧ (setScanError msg now2 cur).step = cur.step
    ∧ (setScanError msg now2 cur).progress = cur.progress
    ∧ (setScanError msg now2 cur).details = cur.details := by
  refine ⟨?_, rfl, rfl, rfl, rfl, rfl, rfl⟩
  simp [updateScanStatus]

/-- Claim C5: if `runScan` is invoked while a previous invocation is still in
progress (`isRunning = true`), the second invocation returns the structured
busy result `{success: false, message: 'Scan already running'}` immediately,
is not queued, and does not alter any state of the in-progress run (the
returned state is exactly the input state). -/
theorem c5_single_flight (deps : RunDeps) (st : SchedState) (h : st.isRunning = true) :
    runScan deps st =
      (Except.ok (mkRunResult false (some "Scan already running") none none none), st) := by
  simp [runScan, h]

/-- Witness for C5 at a concrete in-progress state. -/
theorem c5_single_flight_witness :
    busyState.isRunning = true ∧
    runScan depsAllOk busyState =
      (Except.ok (mkRunResult false (some "Scan already running") none none none), busyState) :=
  ⟨rfl, c5_single_flight depsAllOk busyState rfl⟩

/-- Counterexample to Claim C6 as stated: an execution in which the fetch
stage raises and the catch handler's own `logSchedulerEvent` call (a
better-sqlite3 insert, scheduler line 113) also raises. `runScan` then
propagates the exception instead of returning a structured result, and the
single-flight guard is left held (`isRunning = true`), so `runScan` does not
release the guard on every exit path. -/
theorem c6_counterexample :
    (runScan depsFetchFailLogFail idleState).1 = Except.error "db locked" ∧
    (runScan depsFetchFailLogFail idleState).2.isRunning = true :=
  ⟨rfl, rfl⟩

/-- Claim C6 (amended): for every execution of `runScan` in which the catch
handler's `logSchedulerEvent` call does not itself throw, `runScan` returns a
structured result object (never propagates an exception) and the single-flight
guard is released (`isRunning = false`) on every exit path — whichever of the
fetch, analysis, persistence or success-path logging stages fail. -/
theorem c6_structured_result_and_guard_release (deps : RunDeps) (st : SchedState)
    (h1 : st.isRunning = false) (h2 : deps.logFailureResult = Except.ok ()) :
    (∃ r, (runScan deps st).1 = Except.ok r) ∧ (runScan deps st).2.isRunning = false := by
  rcases hf : deps.fetchResult with e | potd
  · simp [runScan, h1, hf, runScanCatch, h2]
  · rcases ha : deps.analyzeResult with e | an
    · simp [runScan, h1, hf, ha, runScanCatch, h2]
    · rcases hs : deps.savePicksResult with e | u
      · simp [runScan, h1, hf, ha, hs, runScanCatch, h2]
      · rcases hl : deps.logSuccessResult with e | u2
        · simp [runScan, h1, hf, ha, hs, hl, runScanCatch, h2]
        · simp [runScan, h1, hf, ha, hs, hl, runScanCatch, h2]

/-- Witness for the amended C6 at a concrete all-stages-succeed execution. -/
theorem c6_witness :
    idleState.isRunning = false ∧ depsAllOk.logFailureResult = Except.ok () ∧
    ((∃ r, (runScan depsAllOk idleState).1 = Except.ok r) ∧
      (runScan depsAllOk idleState).2.isRunning = false) :=
  ⟨rfl, rfl, c6_structured_result_and_guard_release depsAllOk idleState rfl rfl⟩

/-- Claim C2 (code bug): two `saveScan` calls whose titles derive the same
`potd_date` leave TWO rows flagged current — `saveScan` only demotes the
existing current row when its `potd_date` differs (`src/database.js`
lines 250-253 / 273-276), and then unconditionally inserts the new run as
current. The "at most one current run" invariant the repository itself states
(fix scripts: "Only ONE scan should have is_current = 1") is violated. -/
theorem c2_code_bug_two_current_rows :
    (currentScans (saveScan "1/5/25" scanData2 (saveScan "1/5/25" scanData1 emptyStore))).map
        (fun r => (r.id, r.is_current))
      = [("scan1", true), ("scan2", true)] := by
  rfl

/-- Claim C3 (code bug): after a second `saveScan` with the same derived
`potd_date`, the first run's row is still present and still current, and the
first run's items are still in the picks store — nothing is deleted, contrary
to the claimed collapse of same-topic reruns. -/
theorem c3_code_bug_rerun_not_collapsed :
    (savePicksForScan "scan1" [pickA] (saveScan "1/5/25" scanData1 emptyStore)).map
        (fun r =>
          let st2 := saveScan "1/5/25" scanData2 r.1
          (st2.scans.map (fun row => (row.id, row.is_current)),
           st2.picks.map (fun p => p.scan_id)))
      = Except.ok ([("scan1", true), ("scan2", true)], ["scan1"]) := by
  rfl

/-- Helper: `numBatches` is exactly the ceiling of `n / b` for nonempty
input. -/
theorem numBatches_eq_ceil {b : Nat} (_hb : 0 < b) (n : Nat) (hn : 0 < n) :
    numBatches b n = (n + b - 1) / b := by
  rw [numBatches]
  by_cases hlt : b < n
  · rw [if_pos hlt]
  · rw [if_neg hlt]
    symm
    apply Nat.div_eq_of_lt_le
    · omega
    · omega

/-- Helper: unfolding the batch partition one batch at a time. -/
theorem gamblinaBatches_cons {b : Nat} (hb : 0 < b) (xs : List RawComment) (hxs : xs ≠ []) :
    gamblinaBatches b xs = xs.take b :: gamblinaBatches b (xs.drop b) := by
  have hN : 0 < xs.length := List.length_pos.mpr hxs
  by_cases hle : xs.length ≤ b
  · have hdrop : xs.drop b = [] := List.drop_eq_nil_of_le hle
    have hnb : numBatches b xs.length = 1 := by
      rw [numBatches, if_neg (by omega)]
    rw [gamblinaBatches, if_neg hxs, hnb, hdrop]
    rw [show List.range 1 = [0] from rfl]
    simp [gamblinaBatches]
  · push_neg at hle
    have hdropN : (xs.drop b).length = xs.length - b := List.length_drop b xs
    have hdropne : xs.drop b ≠ [] := by
      intro h
      have := congrArg List.length h
      simp [hdropN] at this
      omega
    have hrec : numBatches b xs.length = numBatches b (xs.length - b) + 1 := by
      rw [numBatches_eq_ceil hb _ hN, numBatches_eq_ceil hb _ (by omega)]
      have h1 : xs.length + b - 1 = (xs.length - 1) + b := by omega
      have h2 : xs.length - b + b - 1 = xs.length - 1 := by omega
      rw [h1, h2, Nat.add_div_right _ hb]
    rw [gamblinaBatches, if_neg hxs, hrec, List.range_succ_eq_map, List.map_cons,
      List.map_map]
    have hhead : (xs.drop (0 * b)).take b = xs.take b := by simp
    rw [hhead]
    rw [gamblinaBatches, if_neg hdropne, hdropN]
    congr 1
    apply List.map_congr_left
    intro i _
    simp only [Function.comp_apply]
    rw [List.drop_drop, Nat.succ_mul, Nat.add_comm (i * b) b]

/-- Helper: the concatenation of the batches is the original list. -/
theorem gamblinaBatches_flatten {b : Nat} (hb : 0 < b) :
    ∀ xs : List RawComment, (gamblinaBatches b xs).flatten = xs
  | [] => by simp [gamblinaBatches]
  | x :: rest => by
    rw [gamblinaBatches_cons hb (x :: rest) (by simp)]
    have ih := gamblinaBatches_flatten hb ((x :: rest).drop b)
    rw [List.flatten_cons, ih, List.take_append_drop]
termination_by xs => xs.length
decreasing_by
  simp only [List.length_drop]
  simp
  omega

/-- Helper: the number of batches is the ceiling of `N / b`. -/
theorem gamblinaBatches_length {b : Nat} (hb : 0 < b) (xs : List RawComment) :
    (gamblinaBatches b xs).length = (xs.length + b - 1) / b := by
  by_cases hxs : xs = []
  · subst hxs
    simp [gamblinaBatches]
    symm
    apply Nat.div_eq_of_lt
    omega
  · rw [gamblinaBatches, if_neg hxs]
    simp [numBatches_eq_ceil hb _ (List.length_pos.mpr hxs)]

/-- Helper: every batch has at most `b` elements. -/
theorem gamblinaBatches_sizes {b : Nat} (xs : List RawComment) :
    ∀ l ∈ gamblinaBatches b xs, l.length ≤ b := by
  intro l hl
  rw [gamblinaBatches] at hl
  split at hl
  · simp at hl
  · obtain ⟨i, _, rfl⟩ := List.mem_map.mp hl
    simp [List.length_take]

/-- Claim C7: for every input list of length `N` and positive batch size `b`,
the Batch Analyzer splits the input into `ceil(N/b)` contiguous batches, each
of size at most `b`, preserving the original order (the concatenation of the
batches in order is the original list exactly once); the empty input yields no
batches and `analyzeWithGamblina` returns the empty result immediately, with
zero Analysis Service invocations and an untouched cache. -/
theorem c7_partitioning (b : Nat) (xs : List RawComment) (hb : 0 < b) :
    (gamblinaBatches b xs).flatten = xs
    ∧ (gamblinaBatches b xs).length = (xs.length + b - 1) / b
    ∧ (∀ l ∈ gamblinaBatches b xs, l.length ≤ b)
    ∧ gamblinaBatches b ([] : List RawComment) = []
    ∧ (∀ (cache : Cache) (oracle : Nat → Except Unit (List GPick × Nat)),
        analyzeWithGamblina cache oracle [] =
          Except.ok ({ analyzedPicks := [], totalAnalyzed := 0, tokensUsed := 0 }, cache, 0)) := by
  refine ⟨gamblinaBatches_flatten hb xs, gamblinaBatches_length hb xs,
    gamblinaBatches_sizes xs, by simp [gamblinaBatches], ?_⟩
  intro cache oracle
  simp [analyzeWithGamblina]

/-- Witness for C7 with batch size 2 over a 3-comment list. -/
theorem c7_partitioning_witness :
    0 < 2 ∧
    ((gamblinaBatches 2 (comments46.take 3)).flatten = comments46.take 3
    ∧ (gamblinaBatches 2 (comments46.take 3)).length = ((comments46.take 3).length + 2 - 1) / 2
    ∧ (∀ l ∈ gamblinaBatches 2 (comments46.take 3), l.length ≤ 2)
    ∧ gamblinaBatches 2 ([] : List RawComment) = []
    ∧ (∀ (cache : Cache) (oracle : Nat → Except Unit (List GPick × Nat)),
        analyzeWithGamblina cache oracle [] =
          Except.ok ({ analyzedPicks := [], totalAnalyzed := 0, tokensUsed := 0 }, cache, 0))) :=
  ⟨by decide, c7_partitioning 2 (comments46.take 3) (by decide)⟩

/-- Helper: inserting is a permutation-preserving operation. -/
theorem insertByConfDesc_perm (x : EnrichedPick) (l : List EnrichedPick) :
    (insertByConfDesc x l).Perm (x :: l) := by
  induction l with
  | nil => exact List.Perm.refl _
  | cons y ys ih =>
    rw [insertByConfDesc]
    by_cases h : x.confidence ≤ y.confidence
    · rw [if_pos h]
      exact (ih.cons y).trans (List.Perm.swap x y ys)
    · rw [if_neg h]

/-- Helper: membership after insertion. -/
theorem mem_insertByConfDesc {z x : EnrichedPick} {l : List EnrichedPick}
    (h : z ∈ insertByConfDesc x l) : z = x ∨ z ∈ l := by
  have := (insertByConfDesc_perm x l).mem_iff.mp h
  simpa using this

/-- Helper: the sorted output is a permutation of the input. -/
theorem jsSortByConfDesc_perm (l : List EnrichedPick) : (jsSortByConfDesc l).Perm l := by
  have key : ∀ (l acc : List EnrichedPick),
      (l.foldl (fun a x => insertByConfDesc x a) acc).Perm (l ++ acc) := by
    intro l
    induction l with
    | nil => intro acc; simp
    | cons x xs ih =>
      intro acc
      rw [List.foldl_cons]
      exact ((ih _).trans (List.Perm.append_left xs (insertByConfDesc_perm x acc))).trans
        List.perm_middle
  have := key l []
  simpa [jsSortByConfDesc] using this

/-- Helper: inserting an element whose rank exceeds every rank already placed
preserves the stable-descending order. -/
theorem pairwise_insertByConfDesc {x : EnrichedPick} {l : List EnrichedPick}
    (hl : l.Pairwise rankedBefore) (hr : ∀ y ∈ l, y.rank < x.rank) :
    (insertByConfDesc x l).Pairwise rankedBefore := by
  induction l with
  | nil => simp [insertByConfDesc]
  | cons y ys ih =>
    rw [List.pairwise_cons] at hl
    obtain ⟨hy, hys⟩ := hl
    rw [insertByConfDesc]
    by_cases hc : x.confidence ≤ y.confidence
    · rw [if_pos hc, List.pairwise_cons]
      refine ⟨?_, ih hys (fun z hz => hr z (by simp [hz]))⟩
      intro z hz
      rcases mem_insertByConfDesc hz with rfl | hz'
      · rcases lt_or_eq_of_le hc with h' | h'
        · exact Or.inl h'
        · exact Or.inr ⟨h'.symm, hr y (by simp)⟩
      · exact hy z hz'
    · rw [if_neg hc, List.pairwise_cons]
      push_neg at hc
      refine ⟨?_, List.pairwise_cons.mpr ⟨hy, hys⟩⟩
      intro z hz
      rcases List.mem_cons.mp hz with rfl | hz'
      · exact Or.inl hc
      · rcases hy z hz' with h' | ⟨h', _⟩
        · exact Or.inl (lt_trans h' hc)
        · exact Or.inl (by rw [← h']; exact hc)

/-- Helper: folding insertions over a rank-increasing list yields a
stable-descending output. -/
theorem foldl_insert_pairwise :
    ∀ (l acc : List EnrichedPick), acc.Pairwise rankedBefore →
      (∀ x ∈ l, ∀ y ∈ acc, y.rank < x.rank) →
      l.Pairwise (fun a c => a.rank < c.rank) →
      (l.foldl (fun a x => insertByConfDesc x a) acc).Pairwise rankedBefore := by
  intro l
  induction l with
  | nil => intro acc hacc _ _; simpa using hacc
  | cons x xs ih =>
    intro acc hacc hcross hl
    rw [List.pairwise_cons] at hl
    rw [List.foldl_cons]
    apply ih
    · exact pairwise_insertByConfDesc hacc (fun y hy => hcross x (by simp) y hy)
    · intro z hz y hy
      rcases mem_insertByConfDesc hy with rfl | hy'
      · exact hl.1 z hz
      · exact hcross z (by simp [hz]) y hy'
    · exact hl.2

/-- Helper: enrichment assigns strictly increasing ranks (accumulation
order). -/
theorem enrich_rank_pairwise (cs : List RawComment) (ps : List GPick) :
    (enrichPicks cs ps).Pairwise (fun a c => a.rank < c.rank) := by
  rw [enrichPicks, List.pairwise_map]
  have h1 : (ps.enum.map Prod.fst).Pairwise (fun a b => a < b) := by
    rw [List.enum_map_fst]
    exact List.pairwise_lt_range _
  rw [List.pairwise_map] at h1
  exact h1.imp (fun h => Nat.add_lt_add_right h 1)

/-- Helper: enrichment ranks are exactly `1, 2, ..., n` in accumulation
order. -/
theorem enrich_rank_map (cs : List RawComment) (ps : List GPick) :
    (enrichPicks cs ps).map (fun e => e.rank) = List.range' 1 ps.length := by
  rw [enrichPicks, List.map_map, List.range'_eq_map_range]
  rw [show List.range ps.length = ps.enum.map Prod.fst from (List.enum_map_fst ps).symm]
  rw [List.map_map]
  apply List.map_congr_left
  intro a _
  show a.1 + 1 = 1 + a.1
  omega

/-- Claim C8 (amended): the analyzer sorts the enriched items by confidence
descending with a stable sort — ties keep the relative order in which the
items were accumulated — but each item's `rank` field equals its 1-based
position in the ACCUMULATION order (assigned before the sort,
`src/gamblina.js` line 87), not its position after the sort. Stability is
expressed through the ranks: among equal confidences, ranks (accumulation
positions) stay increasing. -/
theorem c8_stable_sort_rank_preassigned (cs : List RawComment) (ps : List GPick) :
    ((jsSortByConfDesc (enrichPicks cs ps)).Pairwise
        (fun a c => c.confidence ≤ a.confidence))
    ∧ ((jsSortByConfDesc (enrichPicks cs ps)).Pairwise
        (fun a c => a.confidence = c.confidence → a.rank < c.rank))
    ∧ (jsSortByConfDesc (enrichPicks cs ps)).Perm (enrichPicks cs ps)
    ∧ (enrichPicks cs ps).map (fun e => e.rank) = List.range' 1 ps.length := by
  have hQ : (jsSortByConfDesc (enrichPicks cs ps)).Pairwise rankedBefore := by
    rw [jsSortByConfDesc]
    exact foldl_insert_pairwise _ [] List.Pairwise.nil (by simp) (enrich_rank_pairwise cs ps)
  refine ⟨hQ.imp ?_, hQ.imp ?_, jsSortByConfDesc_perm _, enrich_rank_map cs ps⟩
  · intro a c h
    rcases h with h | ⟨h, _⟩
    · exact le_of_lt h
    · exact le_of_eq h.symm
  · intro a c h heq
    rcases h with h | ⟨_, h2⟩
    · omega
    · exact h2

/-- Counterexample to Claim C8 as stated: with two picks accumulated at
confidences 10 then 90, the sorted output's first item (1-based position 1)
carries `rank = 2` — `rank` was assigned before the sort, so it does not
equal the 1-based position after the sort. -/
theorem c8_counterexample :
    (jsSortByConfDesc (enrichPicks [] [gpickLow, gpickHigh])).map
        (fun e => (e.rank, e.confidence))
      = [(2, 90), (1, 10)] := by
  rfl

/-- Helper: a key just written is found. -/
theorem getCache_setCache_self (c : Cache) (k : List (String × String)) (v : List GPick) :
    getCache (setCache c k v) k = some v := by
  simp [getCache, setCache]

/-- Helper: writing any entry preserves presence of a key. -/
theorem getCache_setCache_isSome {c : Cache} {k : List (String × String)}
    (k' : List (String × String)) (v : List GPick)
    (h : (getCache c k).isSome) : (getCache (setCache c k' v) k).isSome := by
  by_cases hk : k' = k
  · simp [getCache, setCache, hk]
  · simpa [getCache, setCache, hk] using h

/-- Helper: a successful batch run only adds cache entries — every key present
before is present afterwards. -/
theorem runBatches_cache_mono (oracle : Nat → Except Unit (List GPick × Nat)) :
    ∀ (bs : List (List RawComment)) (i : Nat) (cache : Cache)
      (p : List GPick) (t : Nat) (c' : Cache) (n : Nat),
      runBatches oracle bs i cache = Except.ok (p, t, c', n) →
      ∀ k, (getCache cache k).isSome → (getCache c' k).isSome := by
  intro bs
  induction bs with
  | nil =>
    intro i cache p t c' n h k hk
    simp only [runBatches, Except.ok.injEq, Prod.mk.injEq] at h
    obtain ⟨-, -, hc, -⟩ := h
    rwa [← hc]
  | cons b rest ih =>
    intro i cache p t c' n h k hk
    rcases hget : getCache cache (fingerprint b) with _ | entry
    · rcases horacle : oracle i with e | pr
      · simp only [runBatches, hget, horacle] at h
        exact Except.noConfusion h
      · obtain ⟨picks, toks⟩ := pr
        rcases hrec : runBatches oracle rest (i + 1) (setCache cache (fingerprint b) picks)
          with e | q
        · simp only [runBatches, hget, horacle, hrec] at h
          exact Except.noConfusion h
        · obtain ⟨p2, t2, c2, n2⟩ := q
          simp only [runBatches, hget, horacle, hrec, Except.ok.injEq, Prod.mk.injEq] at h
          obtain ⟨-, -, hc, -⟩ := h
          rw [← hc]
          exact ih (i + 1) _ p2 t2 c2 n2 hrec k (getCache_setCache_isSome _ _ hk)
    · rcases hrec : runBatches oracle rest (i + 1) cache with e | q
      · simp only [runBatches, hget, hrec] at h
        exact Except.noConfusion h
      · obtain ⟨p2, t2, c2, n2⟩ := q
        simp only [runBatches, hget, hrec, Except.ok.injEq, Prod.mk.injEq] at h
        obtain ⟨-, -, hc, -⟩ := h
        rw [← hc]
        exact ih (i + 1) cache p2 t2 c2 n2 hrec k hk

/-- Helper: after a successful run, every processed batch's fingerprint is in
the final cache (hits were already present; misses were stored by
`setCache`). -/
theorem runBatches_caches_all (oracle : Nat → Except Unit (List GPick × Nat)) :
    ∀ (bs : List (List RawComment)) (i : Nat) (cache : Cache)
      (p : List GPick) (t : Nat) (c' : Cache) (n : Nat),
      runBatches oracle bs i cache = Except.ok (p, t, c', n) →
      ∀ b ∈ bs, (getCache c' (fingerprint b)).isSome := by
  intro bs
  induction bs with
  | nil => intro i cache p t c' n _ b hb; simp at hb
  | cons b0 rest ih =>
    intro i cache p t c' n h b hb
    rcases List.mem_cons.mp hb with rfl | hbr
    · rcases hget : getCache cache (fingerprint b) with _ | entry
      · rcases horacle : oracle i with e | pr
        · simp only [runBatches, hget, horacle] at h
          exact Except.noConfusion h
        · obtain ⟨picks, toks⟩ := pr
          rcases hrec : runBatches oracle rest (i + 1) (setCache cache (fingerprint b) picks)
            with e | q
          · simp only [runBatches, hget, horacle, hrec] at h
            exact Except.noConfusion h
          · obtain ⟨p2, t2, c2, n2⟩ := q
            simp only [runBatches, hget, horacle, hrec, Except.ok.injEq, Prod.mk.injEq] at h
            obtain ⟨-, -, hc, -⟩ := h
            rw [← hc]
            refine runBatches_cache_mono oracle rest (i + 1) _ p2 t2 c2 n2 hrec _ ?_
            rw [getCache_setCache_self]
            rfl
      · rcases hrec : runBatches oracle rest (i + 1) cache with e | q
        · simp only [runBatches, hget, hrec] at h
          exact Except.noConfusion h
        · obtain ⟨p2, t2, c2, n2⟩ := q
          simp only [runBatches, hget, hrec, Except.ok.injEq, Prod.mk.injEq] at h
          obtain ⟨-, -, hc, -⟩ := h
          rw [← hc]
          refine runBatches_cache_mono oracle rest (i + 1) cache p2 t2 c2 n2 hrec _ ?_
          rw [hget]
          rfl
    · rcases hget : getCache cache (fingerprint b0) with _ | entry
      · rcases horacle : oracle i with e | pr
        · simp only [runBatches, hget, horacle] at h
          exact Except.noConfusion h
        · obtain ⟨picks, toks⟩ := pr
          rcases hrec : runBatches oracle rest (i + 1) (setCache cache (fingerprint b0) picks)
            with e | q
          · simp only [runBatches, hget, horacle, hrec] at h
            exact Except.noConfusion h
          · obtain ⟨p2, t2, c2, n2⟩ := q
            simp only [runBatches, hget, horacle, hrec, Except.ok.injEq, Prod.mk.injEq] at h
            obtain ⟨-, -, hc, -⟩ := h
            rw [← hc]
            exact ih (i + 1) _ p2 t2 c2 n2 hrec b hbr
      · rcases hrec : runBatches oracle rest (i + 1) cache with e | q
        · simp only [runBatches, hget, hrec] at h
          exact Except.noConfusion h
        · obtain ⟨p2, t2, c2, n2⟩ := q
          simp only [runBatches, hget, hrec, Except.ok.injEq, Prod.mk.injEq] at h
          obtain ⟨-, -, hc, -⟩ := h
          rw [← hc]
          exact ih (i + 1) cache p2 t2 c2 n2 hrec b hbr

/-- Helper: when every batch's fingerprint is already cached, the run succeeds
with ZERO Analysis Service invocations and an unchanged cache. -/
theorem runBatches_all_hits (oracle : Nat → Except Unit (List GPick × Nat)) :
    ∀ (bs : List (List RawComment)) (i : Nat) (cache : Cache),
      (∀ b ∈ bs, (getCache cache (fingerprint b)).isSome) →
      ∃ p t, runBatches oracle bs i cache = Except.ok (p, t, cache, 0) := by
  intro bs
  induction bs with
  | nil => intro i cache _; exact ⟨[], 0, rfl⟩
  | cons b0 rest ih =>
    intro i cache hall
    obtain ⟨entry, hget⟩ := Option.isSome_iff_exists.mp (hall b0 (by simp))
    obtain ⟨p, t, hrec⟩ := ih (i + 1) cache (fun b hb => hall b (by simp [hb]))
    exact ⟨entry ++ p, t, by simp [runBatches, hget, hrec]⟩

/-- Helper: a nonempty input yields at least one batch. -/
theorem gamblinaBatches_ne_nil {b : Nat} (hb : 0 < b) {xs : List RawComment}
    (hxs : xs ≠ []) : gamblinaBatches b xs ≠ [] := by
  rw [gamblinaBatches_cons hb xs hxs]
  simp

/-- Claim C9: if a first Batch Analyzer call succeeded (final cache `cache1`)
and every batch of a second call has content byte-identical (same
author/text fingerprint) to some batch analyzed in the first call, then the
second call — within the cache TTL — performs ZERO Analysis Service
invocations: every batch is served from the cache. -/
theorem c9_cache_short_circuit (cache0 : Cache)
    (oracle1 oracle2 : Nat → Except Unit (List GPick × Nat))
    (comments1 comments2 : List RawComment)
    (r1 : GamblinaResult) (cache1 : Cache) (k1 : Nat)
    (h1 : analyzeWithGamblina cache0 oracle1 comments1 = Except.ok (r1, cache1, k1))
    (h2 : ∀ b ∈ gamblinaBatches BATCH_SIZE comments2,
      ∃ b' ∈ gamblinaBatches BATCH_SIZE comments1, fingerprint b' = fingerprint b) :
    ∃ r2 cache2, analyzeWithGamblina cache1 oracle2 comments2 = Except.ok (r2, cache2, 0) := by
  by_cases hc2 : comments2 = []
  · subst hc2
    exact ⟨{ analyzedPicks := [], totalAnalyzed := 0, tokensUsed := 0 }, cache1,
      by simp [analyzeWithGamblina]⟩
  · have hall : ∀ b ∈ gamblinaBatches BATCH_SIZE comments2,
        (getCache cache1 (fingerprint b)).isSome := by
      intro b hb
      obtain ⟨b', hb', heq⟩ := h2 b hb
      by_cases hc1 : comments1 = []
      · subst hc1
        simp [gamblinaBatches] at hb'
      · simp only [analyzeWithGamblina, if_neg hc1] at h1
        rcases hrb : runBatches oracle1 (gamblinaBatches BATCH_SIZE comments1) 0 cache0
          with e | q
        · simp only [hrb] at h1
          exact Except.noConfusion h1
        · obtain ⟨p, t, c', n⟩ := q
          simp only [hrb, Except.ok.injEq, Prod.mk.injEq] at h1
          obtain ⟨-, hcache, -⟩ := h1
          rw [← heq, ← hcache]
          exact runBatches_caches_all oracle1 _ 0 cache0 p t c' n hrb b' hb'
    obtain ⟨p, t, hrun⟩ :=
      runBatches_all_hits oracle2 (gamblinaBatches BATCH_SIZE comments2) 0 cache1 hall
    refine ⟨{ analyzedPicks := jsSortByConfDesc (enrichPicks comments2 p)
              totalAnalyzed := (jsSortByConfDesc (enrichPicks comments2 p)).length
              tokensUsed := t }, cache1, ?_⟩
    simp [analyzeWithGamblina, hc2, hrun]

/-- Witness for C9: a one-batch thread analyzed once (one service call), then
re-analyzed with the resulting cache — the second call needs zero calls. -/
theorem c9_witness :
    (analyzeWithGamblina [] oracleOk [comment1] =
      Except.ok ({ analyzedPicks := [], totalAnalyzed := 0, tokensUsed := 5 },
        [(fingerprint [comment1], [])], 1))
    ∧ (∀ b ∈ gamblinaBatches BATCH_SIZE [comment1],
        ∃ b' ∈ gamblinaBatches BATCH_SIZE [comment1], fingerprint b' = fingerprint b)
    ∧ (∃ r2 cache2, analyzeWithGamblina [(fingerprint [comment1], [])] oracleOk [comment1]
        = Except.ok (r2, cache2, 0)) :=
  ⟨by rfl, by decide,
    c9_cache_short_circuit [] oracleOk oracleOk [comment1] [comment1]
      { analyzedPicks := [], totalAnalyzed := 0, tokensUsed := 5 }
      [(fingerprint [comment1], [])] 1 (by rfl) (by decide)⟩

/-- Helper: a cache-missing batch whose Analysis Service call fails aborts the
whole batch loop with the exception, no matter what follows it. -/
theorem runBatches_error_of_failed_batch (oracle : Nat → Except Unit (List GPick × Nat)) :
    ∀ (pre : List (List RawComment)) (b : List RawComment) (post : List (List RawComment))
      (i : Nat) (cache : Cache),
      oracle (i + pre.length) = Except.error () →
      getCache cache (fingerprint b) = none →
      (∀ b' ∈ pre, fingerprint b' ≠ fingerprint b) →
      runBatches oracle (pre ++ b :: post) i cache = Except.error () := by
  intro pre
  induction pre with
  | nil =>
    intro b post i cache ho hmiss _
    simp only [List.length_nil, Nat.add_zero] at ho
    simp [runBatches, hmiss, ho]
  | cons p pre' ih =>
    intro b post i cache ho hmiss hne
    have ho' : oracle ((i + 1) + pre'.length) = Except.error () := by
      have harith : (i + 1) + pre'.length = i + (p :: pre').length := by
        simp [List.length_cons]
        omega
      rw [harith]
      exact ho
    simp only [List.cons_append]
    rcases hget : getCache cache (fingerprint p) with _ | entry
    · rcases horacle : oracle i with e | pr
      · simp [runBatches, hget, horacle]
      · obtain ⟨picks, toks⟩ := pr
        have hmiss' : getCache (setCache cache (fingerprint p) picks) (fingerprint b) = none := by
          simp [getCache, setCache, hne p (by simp), hmiss]
        have hrec := ih b post (i + 1) (setCache cache (fingerprint p) picks) ho' hmiss'
          (fun b' hb' => hne b' (by simp [hb']))
        simp [runBatches, hget, horacle, hrec]
    · have hrec := ih b post (i + 1) cache ho' hmiss
        (fun b' hb' => hne b' (by simp [hb']))
      simp [runBatches, hget, hrec]

/-- Claim C1 (amended): if the Analysis Service call for some batch fails
(timeout, non-success status, unparsable payload) and that batch was not
served from the cache, `analyzeBatch` logs and rethrows and
`analyzeWithGamblina` — which has no try/catch around the batch loop —
propagates the exception: the whole analysis aborts and the extractions of
every other batch (including already-successful ones) are discarded, instead
of recording zero extractions and continuing. Failures are only caught at the
scan-coordinator level, which fails the whole run. -/
theorem c1_batch_failure_aborts_run (cache0 : Cache)
    (oracle : Nat → Except Unit (List GPick × Nat)) (comments : List RawComment)
    (pre post : List (List RawComment)) (b : List RawComment)
    (hsplit : gamblinaBatches BATCH_SIZE comments = pre ++ b :: post)
    (horacle : oracle pre.length = Except.error ())
    (hmiss : getCache cache0 (fingerprint b) = none)
    (hne : ∀ b' ∈ pre, fingerprint b' ≠ fingerprint b) :
    analyzeWithGamblina cache0 oracle comments = Except.error () := by
  have hc : comments ≠ [] := by
    intro h
    subst h
    simp [gamblinaBatches] at hsplit
  have hrun := runBatches_error_of_failed_batch oracle pre b post 0 cache0
    (by simpa using horacle) hmiss hne
  rw [← hsplit] at hrun
  simp [analyzeWithGamblina, hc, hrun]

/-- Counterexample to Claim C1 as stated: a 46-comment thread splits into two
batches; batch 0's Analysis Service call succeeds (one pick extracted) and
batch 1's call fails. `analyzeWithGamblina` raises (`Except.error`) instead of
returning a result containing batch 0's extractions. -/
theorem c1_counterexample :
    analyzeWithGamblina [] oracle46 comments46 = Except.error () := by
  rfl

/-- Witness for the amended C1 at the concrete two-batch input. -/
theorem c1_witness :
    (gamblinaBatches BATCH_SIZE comments46 = [comments46.take 45] ++ (comments46.drop 45) :: [])
    ∧ (oracle46 ([comments46.take 45]).length = Except.error ())
    ∧ (getCache [] (fingerprint (comments46.drop 45)) = none)
    ∧ (∀ b' ∈ [comments46.take 45], fingerprint b' ≠ fingerprint (comments46.drop 45))
    ∧ analyzeWithGamblina [] oracle46 comments46 = Except.error () :=
  ⟨by decide, by rfl, rfl, by decide,
    c1_batch_failure_aborts_run [] oracle46 comments46 [comments46.take 45] []
      (comments46.drop 45) (by decide) (by rfl) rfl (by decide)⟩

/-- Claim C4 (code bug): `savePicksForScan` is NOT idempotent — the `picks`
table has no unique constraint over the natural key, so the second identical
call inserts the same pick again (`savedCount = 1`, `duplicateCount = 0`) and
the row count doubles instead of staying the same. The duplicate-skipping
catch branch (`src/database.js` lines 318-324) can never fire. -/
theorem c4_code_bug_duplicate_rows :
    (savePicksForScan "scan1" [pickA] emptyStore).map
        (fun r => (r.1.picks.length, r.2.1, r.2.2)) = Except.ok (1, 1, 0)
    ∧ ((savePicksForScan "scan1" [pickA] emptyStore).bind
          (fun r => savePicksForScan "scan1" [pickA] r.1)).map
        (fun r => (r.1.picks.length, r.2.1, r.2.2)) = Except.ok (2, 1, 0) :=
  ⟨rfl, rfl⟩

end Picksync
